import Mathlib

/-!
Verification development for the bulk templated dispatch engine
(`core_sms_sender.py`, `bsms.py`, `email-sender.py`, `app.py`).

Strings are modelled as `List Char`; Python `None`/empty-string truthiness is
made explicit at each use site.  All definitions are shallow embeddings of the
corresponding Python functions, translated clause by clause from the source.
-/

set_option maxRecDepth 16000

namespace Sender

/-! ## Python string primitives (on `List Char`) -/

/-- Python whitespace test used by `str.strip` (ASCII whitespace). -/
def pyIsSpace (c : Char) : Bool :=
  c == ' ' || c == '\t' || c == '\n' || c == '\r' || c == '\x0b' || c == '\x0c'

/-- The separator characters removed by `normalize_phone`:
space, hyphen, parentheses, period and the two bidi marks U+200E/U+200F. -/
def sepChars : List Char := [' ', '-', '(', ')', '.', '‎', '‏']

/-- `s.replace(ch, "")` for every `ch` in `sepChars` (order-independent,
so it is a single filter). -/
def removeSeps (s : List Char) : List Char :=
  s.filter (fun c => !(sepChars.contains c))

/-- Python `str.strip()`: drop whitespace from both ends. -/
def pyStrip (s : List Char) : List Char :=
  ((s.dropWhile pyIsSpace).reverse.dropWhile pyIsSpace).reverse

/-- The cleaning part of `normalize_phone`: strip surrounding whitespace, then
remove every separator character. -/
def pyClean (s : List Char) : List Char := removeSeps (pyStrip s)

/-! ## normalize_phone (`core_sms_sender.py` lines 24-41, `bsms.py` lines 28-49) -/

/-- `if s.startswith("00"): s = "+" + s[2:]`. -/
def step00 (s : List Char) : List Char :=
  if ['0', '0'].isPrefixOf s = true then '+' :: s.drop 2 else s

/-- `if not s.startswith("+") and country_prefix: ...` — prepend the country
prefix after stripping leading zeros, unless the number already carries the
prefix digits. -/
def stepPref (p s : List Char) : List Char :=
  if ['+'].isPrefixOf s = false ∧ p ≠ [] then
    if (p.dropWhile (fun c => c == '+')).isPrefixOf s = true then s
    else p ++ s.dropWhile (fun c => c == '0')
  else s

/-- `if ensure_plus and not s.startswith("+"): s = "+" + s`. -/
def stepPlus (f : Bool) (s : List Char) : List Char :=
  if f = true ∧ ['+'].isPrefixOf s = false then '+' :: s else s

/-- `normalize_phone(phone, country_prefix, ensure_plus)`.  `none` models the
Python `None` argument; an empty prefix list models both `None` and `""`
(both falsy in the `and country_prefix` test). -/
def normalize_phone (phone : Option (List Char)) (cpfx : List Char)
    (ensurePlus : Bool) : List Char :=
  match phone with
  | none => []
  | some ph =>
    if pyClean ph = [] then []
    else stepPlus ensurePlus (stepPref cpfx (step00 (pyClean ph)))

/-! ## List helper lemmas -/

theorem dropWhile_eq_self_of_head (p : Char → Bool) :
    ∀ l : List Char, (∀ c ∈ l, p c = false) → l.dropWhile p = l := by
  intro l h
  cases l with
  | nil => rfl
  | cons a as =>
    have ha : p a = false := h a (List.mem_cons_self a as)
    simp [List.dropWhile, ha]

theorem mem_of_mem_dropWhile (p : Char → Bool) (l : List Char) (c : Char)
    (h : c ∈ l.dropWhile p) : c ∈ l :=
  (List.dropWhile_sublist (p := p) (l := l)).mem h

theorem pyStrip_eq_self (l : List Char) (h : ∀ c ∈ l, pyIsSpace c = false) :
    pyStrip l = l := by
  unfold pyStrip
  rw [dropWhile_eq_self_of_head pyIsSpace l h]
  rw [dropWhile_eq_self_of_head pyIsSpace l.reverse
    (fun c hc => h c (List.mem_reverse.mp hc))]
  exact List.reverse_reverse l

theorem mem_of_mem_pyStrip (l : List Char) (c : Char) (h : c ∈ pyStrip l) :
    c ∈ l := by
  unfold pyStrip at h
  have h1 := List.mem_reverse.mp h
  have h2 := mem_of_mem_dropWhile _ _ _ h1
  exact mem_of_mem_dropWhile _ _ _ (List.mem_reverse.mp h2)

theorem removeSeps_eq_self (l : List Char)
    (h : ∀ c ∈ l, sepChars.contains c = false) : removeSeps l = l := by
  unfold removeSeps
  rw [List.filter_eq_self]
  intro c hc
  show (!(sepChars.contains c)) = true
  rw [h c hc]
  rfl

theorem mem_pyClean (l : List Char) (c : Char) (h : c ∈ pyClean l) :
    c ∈ l ∧ sepChars.contains c = false := by
  unfold pyClean removeSeps at h
  have h1 := List.mem_filter.mp h
  refine ⟨mem_of_mem_pyStrip l c h1.1, ?_⟩
  have h2 := h1.2
  simpa using h2

theorem pyClean_eq_self (l : List Char)
    (h : ∀ c ∈ l, pyIsSpace c = false ∧ sepChars.contains c = false) :
    pyClean l = l := by
  unfold pyClean
  rw [pyStrip_eq_self l (fun c hc => (h c hc).1)]
  exact removeSeps_eq_self l (fun c hc => (h c hc).2)

theorem isPrefixOf_append_self (p x : List Char) :
    p.isPrefixOf (p ++ x) = true := by
  induction p with
  | nil => simp [List.isPrefixOf]
  | cons a as ih => simp [List.isPrefixOf, ih]

theorem dropWhile_head_false (p : Char → Bool) :
    ∀ (l : List Char) (b : Char) (bs : List Char),
      l.dropWhile p = b :: bs → p b = false := by
  intro l
  induction l with
  | nil => intro b bs h; cases h
  | cons a as ih =>
    intro b bs h
    by_cases ha : p a = true
    · rw [List.dropWhile_cons_of_pos ha] at h
      exact ih b bs h
    · rw [List.dropWhile_cons_of_neg ha] at h
      cases h
      simpa using ha

/-! ## Goodness predicates for the idempotence theorem -/

/-- Strings whose whitespace characters (if any) are plain spaces:
no tab/newline can be uncovered at a string boundary by separator removal. -/
def GoodStr (s : List Char) : Prop :=
  ∀ c ∈ s, pyIsSpace c = true → c = ' '

/-- Well-formed country prefixes: no whitespace, no separator characters, and
either carrying a leading `+` or not starting with the digits `00`. -/
def GoodPref (p : List Char) : Prop :=
  (∀ c ∈ p, pyIsSpace c = false ∧ sepChars.contains c = false) ∧
  (['+'].isPrefixOf p = true ∨ ['0', '0'].isPrefixOf p = false)

instance (s : List Char) : Decidable (GoodStr s) := by
  unfold GoodStr; infer_instance

instance (p : List Char) : Decidable (GoodPref p) := by
  unfold GoodPref; infer_instance

/-! ## Fixpoint lemmas for the three normalization steps -/

theorem step00_not00 (s : List Char) :
    ['0', '0'].isPrefixOf (step00 s) = false := by
  unfold step00
  by_cases h : ['0', '0'].isPrefixOf s = true
  · rw [if_pos h]
    simp [List.isPrefixOf]
  · rw [if_neg h]
    exact Bool.eq_false_iff.mpr h

theorem step00_fix (s : List Char) (h : ['0', '0'].isPrefixOf s = false) :
    step00 s = s := by
  unfold step00
  rw [if_neg]
  simp [h]

theorem stepPref_fix (p t : List Char)
    (h : ['+'].isPrefixOf t = true ∨ p = [] ∨
      (p.dropWhile (fun c => c == '+')).isPrefixOf t = true) :
    stepPref p t = t := by
  unfold stepPref
  rcases h with h | h | h
  · rw [if_neg]; rintro ⟨h1, -⟩; rw [h] at h1; cases h1
  · rw [if_neg]; rintro ⟨-, h2⟩; exact h2 h
  · by_cases hc : ['+'].isPrefixOf t = false ∧ p ≠ []
    · rw [if_pos hc, if_pos h]
    · rw [if_neg hc]

theorem stepPlus_fix (f : Bool) (t : List Char)
    (h : f = true → ['+'].isPrefixOf t = true) :
    stepPlus f t = t := by
  unfold stepPlus
  rw [if_neg]
  rintro ⟨hf, hplus⟩
  rw [h hf] at hplus
  cases hplus

/-- A string that is already clean, non-empty, and a fixpoint of all three
rewrite steps is a fixpoint of `normalize_phone`. -/
theorem normalize_phone_fix (p : List Char) (f : Bool) (t : List Char)
    (hclean : pyClean t = t) (hne : t ≠ [])
    (h00 : ['0', '0'].isPrefixOf t = false)
    (hpref : ['+'].isPrefixOf t = true ∨ p = [] ∨
      (p.dropWhile (fun c => c == '+')).isPrefixOf t = true)
    (hplus : f = true → ['+'].isPrefixOf t = true) :
    normalize_phone (some t) p f = t := by
  simp only [normalize_phone]
  rw [hclean, if_neg hne, step00_fix t h00, stepPref_fix p t hpref,
    stepPlus_fix f t hplus]

/-! ## Character tracking through the normalization steps -/

theorem mem_step00 (s : List Char) (c : Char) (h : c ∈ step00 s) :
    c = '+' ∨ c ∈ s := by
  unfold step00 at h
  by_cases h0 : ['0', '0'].isPrefixOf s = true
  · rw [if_pos h0] at h
    rcases List.mem_cons.mp h with h | h
    · exact Or.inl h
    · exact Or.inr (List.drop_subset 2 s h)
  · rw [if_neg h0] at h
    exact Or.inr h

theorem mem_stepPref (p s : List Char) (c : Char) (h : c ∈ stepPref p s) :
    c ∈ p ∨ c ∈ s := by
  unfold stepPref at h
  by_cases hc : ['+'].isPrefixOf s = false ∧ p ≠ []
  · rw [if_pos hc] at h
    by_cases hcp : (p.dropWhile (fun c => c == '+')).isPrefixOf s = true
    · rw [if_pos hcp] at h
      exact Or.inr h
    · rw [if_neg hcp] at h
      rcases List.mem_append.mp h with h | h
      · exact Or.inl h
      · exact Or.inr (mem_of_mem_dropWhile _ _ _ h)
  · rw [if_neg hc] at h
    exact Or.inr h

theorem mem_stepPlus (f : Bool) (s : List Char) (c : Char)
    (h : c ∈ stepPlus f s) : c = '+' ∨ c ∈ s := by
  unfold stepPlus at h
  by_cases hc : f = true ∧ ['+'].isPrefixOf s = false
  · rw [if_pos hc] at h
    rcases List.mem_cons.mp h with h | h
    · exact Or.inl h
    · exact Or.inr h
  · rw [if_neg hc] at h
    exact Or.inr h

/-! ## Non-emptiness through the steps -/

theorem step00_ne_nil (s : List Char) (h : s ≠ []) : step00 s ≠ [] := by
  unfold step00
  by_cases h0 : ['0', '0'].isPrefixOf s = true
  · rw [if_pos h0]; simp
  · rw [if_neg h0]; exact h

theorem stepPref_ne_nil (p s : List Char) (h : s ≠ []) : stepPref p s ≠ [] := by
  unfold stepPref
  by_cases hc : ['+'].isPrefixOf s = false ∧ p ≠ []
  · rw [if_pos hc]
    by_cases hcp : (p.dropWhile (fun c => c == '+')).isPrefixOf s = true
    · rw [if_pos hcp]; exact h
    · rw [if_neg hcp]
      intro hcontra
      exact hc.2 (List.append_eq_nil.mp hcontra).1
  · rw [if_neg hc]; exact h

theorem stepPlus_ne_nil (f : Bool) (s : List Char) (h : s ≠ []) :
    stepPlus f s ≠ [] := by
  unfold stepPlus
  by_cases hc : f = true ∧ ['+'].isPrefixOf s = false
  · rw [if_pos hc]; simp
  · rw [if_neg hc]; exact h

/-! ## Prefix facts through the steps -/

theorem isPrefixOf_single (x : Char) (l : List Char)
    (h : [x].isPrefixOf l = true) : ∃ t, l = x :: t := by
  cases l with
  | nil => simp [List.isPrefixOf] at h
  | cons a as =>
    simp [List.isPrefixOf] at h
    exact ⟨as, by rw [h]⟩

theorem stepPref_not00 (p s : List Char)
    (hp2 : ['+'].isPrefixOf p = true ∨ ['0', '0'].isPrefixOf p = false)
    (h : ['0', '0'].isPrefixOf s = false) :
    ['0', '0'].isPrefixOf (stepPref p s) = false := by
  unfold stepPref
  by_cases hc : ['+'].isPrefixOf s = false ∧ p ≠ []
  · rw [if_pos hc]
    by_cases hcp : (p.dropWhile (fun c => c == '+')).isPrefixOf s = true
    · rw [if_pos hcp]; exact h
    · rw [if_neg hcp]
      rcases hp2 with hplus | h00p
      · obtain ⟨ps, hps⟩ := isPrefixOf_single '+' p hplus
        subst hps
        simp [List.isPrefixOf]
      · cases p with
        | nil => exact absurd rfl hc.2
        | cons a as =>
          cases as with
          | nil =>
            cases hdz : s.dropWhile (fun c => c == '0') with
            | nil => simp [List.isPrefixOf]
            | cons b bs =>
              have hb : (b == '0') = false := dropWhile_head_false _ s b bs hdz
              have hb2 : ('0' == b) = false := by
                rw [beq_eq_false_iff_ne] at hb ⊢
                exact fun hh => hb hh.symm
              simp [List.isPrefixOf, hb2]
          | cons b bs =>
            simpa [List.isPrefixOf] using h00p
  · rw [if_neg hc]; exact h

theorem stepPref_after (p s : List Char) :
    ['+'].isPrefixOf (stepPref p s) = true ∨ p = [] ∨
    (p.dropWhile (fun c => c == '+')).isPrefixOf (stepPref p s) = true := by
  unfold stepPref
  by_cases hc : ['+'].isPrefixOf s = false ∧ p ≠ []
  · rw [if_pos hc]
    by_cases hcp : (p.dropWhile (fun c => c == '+')).isPrefixOf s = true
    · rw [if_pos hcp]
      exact Or.inr (Or.inr hcp)
    · rw [if_neg hcp]
      by_cases hplus : ['+'].isPrefixOf p = true
      · obtain ⟨ps, hps⟩ := isPrefixOf_single '+' p hplus
        subst hps
        left
        simp [List.isPrefixOf]
      · right; right
        have hdp : p.dropWhile (fun c => c == '+') = p := by
          cases p with
          | nil => rfl
          | cons a as =>
            have ha : ¬ '+' = a := by simpa [List.isPrefixOf] using hplus
            have ha2 : (a == '+') = false := by
              rw [beq_eq_false_iff_ne]
              exact fun hh => ha hh.symm
            rw [List.dropWhile_cons_of_neg]
            simp [ha2]
        rw [hdp]
        exact isPrefixOf_append_self p _
  · rw [if_neg hc]
    by_cases hpn : p = []
    · exact Or.inr (Or.inl hpn)
    · left
      rcases not_and_or.mp hc with h | h
      · simpa using h
      · exact absurd (not_not.mp h) hpn

theorem stepPlus_not00 (f : Bool) (u : List Char)
    (h : ['0', '0'].isPrefixOf u = false) :
    ['0', '0'].isPrefixOf (stepPlus f u) = false := by
  unfold stepPlus
  by_cases hc : f = true ∧ ['+'].isPrefixOf u = false
  · rw [if_pos hc]; simp [List.isPrefixOf]
  · rw [if_neg hc]; exact h

theorem stepPlus_or (f : Bool) (u p : List Char)
    (h : ['+'].isPrefixOf u = true ∨ p = [] ∨
      (p.dropWhile (fun c => c == '+')).isPrefixOf u = true) :
    ['+'].isPrefixOf (stepPlus f u) = true ∨ p = [] ∨
    (p.dropWhile (fun c => c == '+')).isPrefixOf (stepPlus f u) = true := by
  unfold stepPlus
  by_cases hc : f = true ∧ ['+'].isPrefixOf u = false
  · rw [if_pos hc]
    left
    simp [List.isPrefixOf]
  · rw [if_neg hc]; exact h

theorem stepPlus_plus (f : Bool) (u : List Char) (hf : f = true) :
    ['+'].isPrefixOf (stepPlus f u) = true := by
  unfold stepPlus
  by_cases hc : f = true ∧ ['+'].isPrefixOf u = false
  · rw [if_pos hc]; simp [List.isPrefixOf]
  · rw [if_neg hc]
    rcases not_and_or.mp hc with h | h
    · exact absurd hf h
    · simpa using h

/-! ## Idempotence of normalize_phone on well-formed inputs -/

theorem pyClean_good (s : List Char) (hs : GoodStr s) :
    ∀ c ∈ pyClean s, pyIsSpace c = false ∧ sepChars.contains c = false := by
  intro c hc
  obtain ⟨hcs, hnsep⟩ := mem_pyClean s c hc
  refine ⟨?_, hnsep⟩
  cases hsp : pyIsSpace c with
  | false => rfl
  | true =>
    have hce := hs c hcs hsp
    subst hce
    exact absurd hnsep (by decide)

theorem normalize_phone_idem (s p : List Char) (f : Bool)
    (hs : GoodStr s) (hp : GoodPref p) :
    normalize_phone (some (normalize_phone (some s) p f)) p f =
      normalize_phone (some s) p f := by
  by_cases h0 : pyClean s = []
  · have h1 : normalize_phone (some s) p f = [] := by
      simp only [normalize_phone]
      rw [if_pos h0]
    rw [h1]
    simp only [normalize_phone]
    rw [if_pos (by rfl : pyClean ([] : List Char) = [])]
  · have h1 : normalize_phone (some s) p f =
        stepPlus f (stepPref p (step00 (pyClean s))) := by
      simp only [normalize_phone]
      rw [if_neg h0]
    rw [h1]
    have hg : ∀ c ∈ stepPlus f (stepPref p (step00 (pyClean s))),
        pyIsSpace c = false ∧ sepChars.contains c = false := by
      intro c hc
      rcases mem_stepPlus _ _ c hc with h | h
      · subst h; exact (by decide)
      rcases mem_stepPref _ _ c h with h | h
      · exact hp.1 c h
      rcases mem_step00 _ c h with h | h
      · subst h; exact (by decide)
      · exact pyClean_good s hs c h
    apply normalize_phone_fix
    · exact pyClean_eq_self _ hg
    · exact stepPlus_ne_nil f _ (stepPref_ne_nil p _ (step00_ne_nil _ h0))
    · exact stepPlus_not00 f _ (stepPref_not00 p _ hp.2 (step00_not00 (pyClean s)))
    · exact stepPlus_or f _ p (stepPref_after p (step00 (pyClean s)))
    · exact fun hf => stepPlus_plus f _ hf

/-! ## History Gate (`core_sms_sender.py` lines 133-160, table `messages`) -/

/-- One row of the `messages` table.  `sent_day` abstracts `DATE(sent_at)`;
the day of a query is passed explicitly as `CURRENT_DATE`. -/
structure HistoryEntry where
  gateway_id : Nat
  phone_number : List Char
  message : String
  status : String
  sent_day : Nat
deriving DecidableEq

/-- `SMSSender.get_daily_sent_count`: `SELECT COUNT(*) FROM messages WHERE
gateway_id = %s AND DATE(sent_at) = CURRENT_DATE`; returns 0 without a
database connection.  Note: the query has no filter on `status`. -/
def getDailySentCount (db : Option (List HistoryEntry)) (gid today : Nat) :
    Nat :=
  match db with
  | none => 0
  | some es => es.countP (fun e => e.gateway_id == gid && e.sent_day == today)

/-- `SMSSender.was_sent_today`: `SELECT 1 FROM messages WHERE phone_number =
%s AND status = 'success' AND DATE(sent_at) = CURRENT_DATE`; false without a
database connection. -/
def wasSentToday (db : Option (List HistoryEntry)) (phone : List Char)
    (today : Nat) : Bool :=
  match db with
  | none => false
  | some es => es.any (fun e =>
      e.phone_number == phone && e.status == "success" && e.sent_day == today)

/-- Modelled from the spec: `dailyCount(accountId)` as §4.4 words it — the
count of records logged as *successful* for the account today.  Stated for
comparison with `getDailySentCount`, which the code actually implements. -/
def dailyCountSpec (es : List HistoryEntry) (gid today : Nat) : Nat :=
  es.countP (fun e =>
    e.gateway_id == gid && e.sent_day == today && e.status == "success")

/-- One tuple appended to `log_batch`:
`(gateway_id, phone_norm, message, "success"/"failed")`. -/
structure BatchTuple where
  gid : Nat
  phone : List Char
  message : String
  status : String
deriving DecidableEq

/-- `SMSSender.log_to_db_batch`: performs a batched insert only when a
database connection exists and the batch is non-empty.  Modelled at the level
of the sequence of insert calls actually issued. -/
def logToDbBatch (db : Option (List HistoryEntry))
    (writes : List (List BatchTuple)) (logs : List BatchTuple) :
    List (List BatchTuple) :=
  if db.isSome = true ∧ logs ≠ [] then writes ++ [logs] else writes

/-! ## SMS Dispatch Engine (`SMSSender.send_messages`) -/

/-- Outcome of one `send_to_gateway` call: `(ok, status_code, text)`. -/
structure SendOutcome where
  ok : Bool
  status : Option Nat
  text : String
deriving DecidableEq

/-- The per-run configuration consumed by `SMSSender.send_messages`.
`limit = 0` models the Python falsy "no limit"; an empty `cpfx` models a
missing country prefix. -/
structure SMSConfig where
  gateway_id : Nat
  retries : Nat
  limit : Nat
  skip_duplicates : Bool
  cpfx : List Char
  ensurePlus : Bool

/-- A contact row: ordered mapping from column name to value. -/
abbrev Row := List (String × String)

/-- Python `row.get(k, "")` on a dict modelled as first-match lookup. -/
def rowGet (row : Row) (k : String) : String :=
  match row.find? (fun kv => kv.1 == k) with
  | some kv => kv.2
  | none => ""

/-- `row.get("phone", "") or row.get("Phone", "") or ""` (Python `or`
chain on falsy empty strings). -/
def getRawPhone (row : Row) : String :=
  if rowGet row "phone" ≠ "" then rowGet row "phone"
  else if rowGet row "Phone" ≠ "" then rowGet row "Phone"
  else ""

/-- One written row of the output CSV (the meta columns that the engine
fills in; original row columns are copied verbatim and carry no logic). -/
structure SMSLogRecord where
  phone_normalized : List Char
  message : String
  attempts : Nat
  success : Bool
  status_code : Option Nat
  response : String
deriving DecidableEq

/-- Progress/termination notifications observable through `on_progress`. -/
inductive PEvent where
  | dupSkip
  | dryRun
  | periodic
  | halted
deriving DecidableEq

/-- Mutable state of one `send_messages` run, plus the observable traces
(log rows written, transport calls issued, rate-cap questions asked,
database batch writes). -/
structure EngineState where
  sent_count : Nat
  continue_sending : Bool
  total_processed : Nat
  askIdx : Nat
  callIdx : Nat
  log : List SMSLogRecord
  calls : List (List Char × String)
  batch : List BatchTuple
  writes : List (List BatchTuple)
  events : List PEvent
deriving DecidableEq

/-- The retry loop of `send_messages` (lines 211-225): `fuel` is the total
attempt budget `retries + 1`.  Returns `(attempts, success, last_status,
last_response)`; the transport oracle `tr` is indexed by a global call
counter starting at `ci`. -/
def retryLoop (tr : Nat → SendOutcome) (ci : Nat) :
    Nat → Nat × Bool × Option Nat × String
  | 0 => (0, false, none, "")
  | 1 =>
    let o := tr ci
    (1, o.ok, o.status, o.text)
  | n + 2 =>
    let o := tr ci
    if o.ok = true then (1, true, o.status, o.text)
    else
      let r := retryLoop tr (ci + 1) (n + 1)
      (r.1 + 1, r.2.1, r.2.2.1, r.2.2.2)

/-- The `log_to_db_batch(log_batch)` call after the loop ends. -/
def flushFinal (db : Option (List HistoryEntry)) (st : EngineState) :
    EngineState :=
  { st with writes := logToDbBatch db st.writes st.batch }

/-- The body of `SMSSender.send_messages` (lines 178-249), one iteration per
row.  `dec` answers the rate-cap `askyesno` dialogs in order; `render`
stands for `build_message template`.  Conditional state updates are written
field-wise (the condition inside the field) — the same state transition as
the source, in a projection-friendly form. -/
def processRows (cfg : SMSConfig) (db : Option (List HistoryEntry))
    (today : Nat) (dry : Bool) (tr : Nat → SendOutcome) (dec : Nat → Bool)
    (render : Row → String) : List Row → EngineState → EngineState
  | [], st => flushFinal db st
  | row :: rest, st =>
    if st.continue_sending = false then
      flushFinal db { st with events := st.events ++ [PEvent.halted] }
    else if 1000 ≤ st.sent_count ∧ dec st.askIdx = false then
      processRows cfg db today dry tr dec render rest
        { st with askIdx := st.askIdx + 1, continue_sending := false }
    else
      let ask1 := if 1000 ≤ st.sent_count then st.askIdx + 1 else st.askIdx
      if cfg.limit ≠ 0 ∧ cfg.limit ≤ st.total_processed then
        flushFinal db { st with askIdx := ask1 }
      else
        let pn := normalize_phone (some (getRawPhone row).toList) cfg.cpfx
          cfg.ensurePlus
        if cfg.skip_duplicates = true ∧ wasSentToday db pn today = true then
          processRows cfg db today dry tr dec render rest
            { st with askIdx := ask1,
                      total_processed := st.total_processed + 1,
                      events := st.events ++ [PEvent.dupSkip] }
        else
          let msg := render row
          if dry = true then
            processRows cfg db today dry tr dec render rest
              { st with askIdx := ask1,
                        total_processed := st.total_processed + 1,
                        events := st.events ++ [PEvent.dryRun],
                        log := st.log ++ [⟨pn, msg, 0, false, none, ""⟩] }
          else
            let r := retryLoop tr st.callIdx (cfg.retries + 1)
            let newBatch := st.batch ++
              [⟨cfg.gateway_id, pn, msg,
                if r.2.1 = true then "success" else "failed"⟩]
            processRows cfg db today dry tr dec render rest
              { st with
                askIdx := ask1,
                total_processed := st.total_processed + 1,
                callIdx := st.callIdx + r.1,
                calls := st.calls ++ List.replicate r.1 (pn, msg),
                log := st.log ++ [⟨pn, msg, r.1, r.2.1, r.2.2.1, r.2.2.2⟩],
                sent_count := st.sent_count +
                  (if r.2.1 = true then 1 else 0),
                writes := if 100 ≤ newBatch.length then
                    logToDbBatch db st.writes newBatch
                  else st.writes,
                batch := if 100 ≤ newBatch.length then [] else newBatch,
                events := st.events ++
                  (if (st.total_processed + 1) % 100 = 0 then
                    [PEvent.periodic] else []) }

/-- `SMSSender.send_messages` top level: the daily sent counter is seeded
from `get_daily_sent_count`, every other piece of state starts empty. -/
def sendMessages (cfg : SMSConfig) (db : Option (List HistoryEntry))
    (today : Nat) (dry : Bool) (tr : Nat → SendOutcome) (dec : Nat → Bool)
    (render : Row → String) (rows : List Row) : EngineState :=
  processRows cfg db today dry tr dec render rows
    { sent_count := getDailySentCount db cfg.gateway_id today,
      continue_sending := true, total_processed := 0, askIdx := 0,
      callIdx := 0, log := [], calls := [], batch := [], writes := [],
      events := [] }

/-! ## Email sender (`email-sender.py`) -/

/-- The hard-coded default credential (`DEFAULT_MAIL_PASS`). -/
def DEFAULT_MAIL_PASS : String := "gzyt pdia vrzx gbuz"

/-- The credential resolution chain of `main()` (lines 209-223).
`none` models Python `None`; `envLookup` models `os.getenv` (with `""` as
the supplied default), `promptResult` what `getpass.getpass` would return. -/
def resolvePassword (passwordEnv : Option String)
    (envLookup : String → Option String) (password : Option String)
    (promptResult : String) : String :=
  let sp0 : Option String :=
    match passwordEnv with
    | some envName => if envName = "" then none
                      else some ((envLookup envName).getD "")
    | none => none
  let sp1 : Option String :=
    if sp0 = some "" then
      match password with
      | some pw => if pw = "" then sp0 else some pw
      | none => sp0
    else sp0
  let sp2 := if sp1 = some "" then some DEFAULT_MAIL_PASS else sp1
  let sp3 := if sp2 = some "" then some promptResult else sp2
  sp3.getD ""

/-- `row.get("email", "") or row.get("Email", "") or ""`. -/
def getToAddr (row : Row) : String :=
  if rowGet row "email" ≠ "" then rowGet row "email"
  else if rowGet row "Email" ≠ "" then rowGet row "Email"
  else ""

/-- One row of the email send log (meta columns only). -/
structure EmailLogRecord where
  email_final : String
  subject : String
  attempts : Nat
  success : Bool
  error : String
deriving DecidableEq

/-- Per-run configuration of the bulk email loop. -/
structure EmailConfig where
  retries : Nat
  limit : Nat

/-- State of the bulk email loop: `conns` records the credential passed to
each `connect_smtp` call in order, `sends` the recipient of each
`send_message` attempt. -/
structure EmailState where
  total_processed : Nat
  connected : Bool
  connIdx : Nat
  conns : List String
  sendIdx : Nat
  sends : List String
  log : List EmailLogRecord
deriving DecidableEq

/-- The email retry loop (lines 301-323): each failed attempt quits and
reconnects with the *resolved* password `pw`; the reconnect happens even
after the final failed attempt.  Returns `(attempts, success, state)`. -/
def emailRetry (pw toA : String) (sendOk : Nat → Bool) :
    Nat → EmailState → Nat × Bool × EmailState
  | 0, st => (0, false, st)
  | fuel + 1, st =>
    let ok := sendOk st.sendIdx
    let st1 := { st with sends := st.sends ++ [toA],
                         sendIdx := st.sendIdx + 1 }
    if ok = true then (1, true, st1)
    else
      let st2 := { st1 with conns := st1.conns ++ [pw],
                            connIdx := st1.connIdx + 1 }
      if fuel = 0 then (1, false, st2)
      else
        let r := emailRetry pw toA sendOk fuel st2
        (r.1 + 1, r.2.1, r.2.2)

/-- The bulk-CSV loop of `email-sender.py` `main()` (lines 268-330).  Note
that the lazy initial `connect_smtp` (lines 292-300) is invoked with the
constant `DEFAULT_MAIL_PASS`, not with the resolved password; the connect
happens at most once per run (`smtp_connected` is never reset), and a
connect failure logs the row and breaks out of the loop. -/
def emailProcessRows (cfg : EmailConfig) (pw : String) (dry : Bool)
    (connOk sendOk : Nat → Bool) (renderS : Row → String) :
    List Row → EmailState → EmailState
  | [], st => st
  | row :: rest, st =>
    if cfg.limit ≠ 0 ∧ cfg.limit ≤ st.total_processed then st
    else
      if getToAddr row = "" then
        emailProcessRows cfg pw dry connOk sendOk renderS rest
          { st with total_processed := st.total_processed + 1,
                    log := st.log ++ [⟨"", "", 0, false, "no-email"⟩] }
      else
        if dry = true then
          emailProcessRows cfg pw dry connOk sendOk renderS rest
            { st with total_processed := st.total_processed + 1,
                      log := st.log ++
                        [⟨getToAddr row, renderS row, 0, false, ""⟩] }
        else
          if st.connected = true then
            let r := emailRetry pw (getToAddr row) sendOk (cfg.retries + 1)
              { st with total_processed := st.total_processed + 1 }
            emailProcessRows cfg pw dry connOk sendOk renderS rest
              { r.2.2 with log := r.2.2.log ++
                  [⟨getToAddr row, renderS row, r.1, r.2.1,
                    if r.2.1 = true then "" else "send_failed"⟩] }
          else
            if connOk st.connIdx = true then
              let r := emailRetry pw (getToAddr row) sendOk (cfg.retries + 1)
                { st with total_processed := st.total_processed + 1,
                          conns := st.conns ++ [DEFAULT_MAIL_PASS],
                          connIdx := st.connIdx + 1, connected := true }
              emailProcessRows cfg pw dry connOk sendOk renderS rest
                { r.2.2 with log := r.2.2.log ++
                    [⟨getToAddr row, renderS row, r.1, r.2.1,
                      if r.2.1 = true then "" else "send_failed"⟩] }
            else
              { st with total_processed := st.total_processed + 1,
                        conns := st.conns ++ [DEFAULT_MAIL_PASS],
                        connIdx := st.connIdx + 1,
                        log := st.log ++
                          [⟨getToAddr row, renderS row, 0, false,
                            "smtp_connect_failed"⟩] }

/-- A bulk email run from the initial (unconnected, empty-trace) state. -/
def emailRun (cfg : EmailConfig) (pw : String) (dry : Bool)
    (connOk sendOk : Nat → Bool) (renderS : Row → String)
    (rows : List Row) : EmailState :=
  emailProcessRows cfg pw dry connOk sendOk renderS rows
    ⟨0, false, 0, [], 0, [], []⟩

/-! ## Escaped-dialect template renderer (`email-sender.py` build_message) -/

/-- `[A-Za-z0-9_]` (the regex character class of the placeholder name). -/
def isNameChar (c : Char) : Bool := c.isAlphanum || c == '_'

/-- The temporary marker `__TMPL_VAR_<k>__`. -/
def markerStr (k : Nat) : List Char :=
  "__TMPL_VAR_".toList ++ (Nat.repr k).toList ++ "__".toList

/-- Try to match the regex `\x7b\x7b\s*([A-Za-z0-9_]+)\s*\x7d\x7d` at the
head of the list; on success return the name and the rest of the input. -/
def matchVar (l : List Char) : Option (List Char × List Char) :=
  match l with
  | '\x7b' :: '\x7b' :: rest =>
    let r1 := rest.dropWhile pyIsSpace
    let nm := r1.takeWhile isNameChar
    if nm = [] then none
    else
      match (r1.dropWhile isNameChar).dropWhile pyIsSpace with
      | '\x7d' :: '\x7d' :: r3 => some (nm, r3)
      | _ => none
  | _ => none

/-- Step 1 of `build_message`: `pattern.sub(_marker_repl, template)` — the
left-to-right, non-overlapping substitution of `re.sub`, also collecting the
`marker -> name` association in encounter order.  `fuel` bounds the scan; it
is instantiated with the template length, which every step consumes. -/
def subVarsAux : Nat → List Char → Nat → List Char × List (List Char × List Char)
  | 0, l, _ => (l, [])
  | fuel + 1, l, k =>
    match l with
    | [] => ([], [])
    | c :: rest =>
      match matchVar l with
      | some (nm, r3) =>
        let pr := subVarsAux fuel r3 (k + 1)
        (markerStr k ++ pr.1, (markerStr k, nm) :: pr.2)
      | none =>
        let pr := subVarsAux fuel rest k
        (c :: pr.1, pr.2)

/-- Step 2: `tmp.replace("\x7b", "\x7b\x7b").replace("\x7d", "\x7d\x7d")`.
The first replace produces no `\x7d`, so the sequential composition is a
single character-wise expansion. -/
def escBraces : List Char → List Char
  | [] => []
  | c :: rest =>
    (if c = '\x7b' then ['\x7b', '\x7b']
     else if c = '\x7d' then ['\x7d', '\x7d'] else [c]) ++ escBraces rest

/-- Python `str.replace(pat, rep)`: left-to-right, non-overlapping.  `fuel`
is instantiated with the subject length, which every step consumes. -/
def replaceSub : Nat → List Char → List Char → List Char → List Char
  | 0, s, _, _ => s
  | fuel + 1, s, pat, rep =>
    match s with
    | [] => []
    | c :: rest =>
      if pat ≠ [] ∧ pat.isPrefixOf s = true then
        rep ++ replaceSub fuel (s.drop pat.length) pat rep
      else c :: replaceSub fuel rest pat rep

/-- `SafeDict` lookup: a missing key yields the empty string. -/
def safeLookup (d : List (List Char × List Char)) (n : List Char) :
    List Char :=
  match d.find? (fun kv => kv.1 == n) with
  | some kv => kv.2
  | none => []

/-- The value preparation of `build_message`: string values plus the
`_upper`/`_lower` derived keys (ASCII case model). -/
def addCases (row : List (List Char × List Char)) :
    List (List Char × List Char) :=
  row ++ row.map (fun kv => (kv.1 ++ "_upper".toList, kv.2.map Char.toUpper))
      ++ row.map (fun kv => (kv.1 ++ "_lower".toList, kv.2.map Char.toLower))

/-- Step 4: `tmp.format_map(SafeDict(clean))`.  `\x7b\x7b` and `\x7d\x7d`
are brace escapes, `\x7bname\x7d` is a substitution, a stray brace is a
`ValueError` (`none`).  `fuel` is instantiated with the input length. -/
def formatMap (d : List (List Char × List Char)) :
    Nat → List Char → Option (List Char)
  | 0, l => if l = [] then some [] else none
  | fuel + 1, l =>
    match l with
    | [] => some []
    | '\x7b' :: '\x7b' :: rest =>
      (formatMap d fuel rest).map (fun r => '\x7b' :: r)
    | '\x7d' :: '\x7d' :: rest =>
      (formatMap d fuel rest).map (fun r => '\x7d' :: r)
    | '\x7b' :: rest =>
      let nm := rest.takeWhile (fun c => c ≠ '\x7d')
      if nm = [] then none
      else
        match rest.drop nm.length with
        | '\x7d' :: r2 =>
          (formatMap d fuel r2).map (fun r => safeLookup d nm ++ r)
        | _ => none
    | '\x7d' :: _ => none
    | c :: rest => (formatMap d fuel rest).map (fun r => c :: r)

/-- `build_message` of `email-sender.py` (lines 71-119): marker extraction,
brace escaping, marker restoration in insertion order, then `format_map`
over the SafeDict of values. -/
def build_message_escaped (template : List Char)
    (row : List (List Char × List Char)) : Option (List Char) :=
  let d := addCases row
  let pr := subVarsAux template.length template 0
  let t1 := escBraces pr.1
  let t2 := pr.2.foldl
    (fun acc mk => replaceSub acc.length acc mk.1 ('\x7b' :: mk.2 ++ ['\x7d']))
    t1
  formatMap d t2.length t2

/-! ## Engine helper lemmas -/

theorem logToDbBatch_none (w : List (List BatchTuple)) (l : List BatchTuple) :
    logToDbBatch none w l = w := by
  unfold logToDbBatch
  rw [if_neg]
  rintro ⟨h, -⟩
  simp [Option.isSome] at h

theorem retryLoop_fail (tr : Nat → SendOutcome)
    (hfail : ∀ i, (tr i).ok = false) :
    ∀ (n ci : Nat), retryLoop tr ci (n + 1) =
      (n + 1, false, (tr (ci + n)).status, (tr (ci + n)).text) := by
  intro n
  induction n with
  | zero =>
    intro ci
    show retryLoop tr ci 1 = _
    simp only [retryLoop]
    rw [hfail ci]
    simp
  | succ m ih =>
    intro ci
    show retryLoop tr ci (m + 2) = _
    simp only [retryLoop]
    rw [if_neg (by rw [hfail ci]; exact fun h => nomatch h)]
    rw [ih (ci + 1)]
    have harith : ci + 1 + m = ci + (m + 1) := by omega
    rw [harith]

theorem retryLoop_attempts_pos (tr : Nat → SendOutcome) (ci n : Nat) :
    1 ≤ (retryLoop tr ci (n + 1)).1 := by
  cases n with
  | zero =>
    show 1 ≤ (retryLoop tr ci 1).1
    simp [retryLoop]
  | succ m =>
    show 1 ≤ (retryLoop tr ci (m + 2)).1
    simp only [retryLoop]
    by_cases h : (tr ci).ok = true
    · rw [if_pos h]
    · rw [if_neg h]
      exact Nat.le_add_left 1 _

theorem processRows_halt_askIdx (cfg : SMSConfig)
    (db : Option (List HistoryEntry)) (today : Nat) (dry : Bool)
    (tr : Nat → SendOutcome) (dec : Nat → Bool) (render : Row → String) :
    ∀ (rows : List Row) (st : EngineState), st.continue_sending = false →
      (processRows cfg db today dry tr dec render rows st).askIdx =
        st.askIdx := by
  intro rows st h
  cases rows with
  | nil => rfl
  | cons r rest =>
    simp only [processRows]
    rw [if_pos h]
    rfl

/-- Closed form of a one-row run with no history store, live transport
(`dry_run = False`): exactly one retry-loop execution, one log row, the
corresponding block of transport calls. -/
theorem single_row_send (cfg : SMSConfig) (today : Nat)
    (tr : Nat → SendOutcome) (dec : Nat → Bool) (render : Row → String)
    (row : Row) :
    (sendMessages cfg none today false tr dec render [row]).log =
      [⟨normalize_phone (some (getRawPhone row).toList) cfg.cpfx
          cfg.ensurePlus, render row,
        (retryLoop tr 0 (cfg.retries + 1)).1,
        (retryLoop tr 0 (cfg.retries + 1)).2.1,
        (retryLoop tr 0 (cfg.retries + 1)).2.2.1,
        (retryLoop tr 0 (cfg.retries + 1)).2.2.2⟩] ∧
    (sendMessages cfg none today false tr dec render [row]).calls =
      List.replicate (retryLoop tr 0 (cfg.retries + 1)).1
        (normalize_phone (some (getRawPhone row).toList) cfg.cpfx
          cfg.ensurePlus, render row) := by
  unfold sendMessages
  have h0 : getDailySentCount none cfg.gateway_id today = 0 := rfl
  rw [h0]
  simp only [processRows]
  rw [if_neg (by simp)]
  rw [if_neg (by rintro ⟨h, -⟩; simp at h)]
  rw [if_neg (by rintro ⟨h, h2⟩; simp at h2; exact h h2)]
  rw [if_neg (by rintro ⟨-, h⟩; simp [wasSentToday] at h)]
  rw [if_neg (by simp)]
  simp only [flushFinal, logToDbBatch_none]
  constructor <;> simp

theorem dry_invariant (cfg : SMSConfig) (db : Option (List HistoryEntry))
    (today : Nat) (tr : Nat → SendOutcome) (dec : Nat → Bool)
    (render : Row → String) :
    ∀ (rows : List Row) (st : EngineState),
      (processRows cfg db today true tr dec render rows st).calls =
        st.calls ∧
      (st.log.all (fun lr => lr.attempts == 0 && lr.success == false) =
          true →
        (processRows cfg db today true tr dec render rows st).log.all
          (fun lr => lr.attempts == 0 && lr.success == false) = true) := by
  intro rows
  induction rows with
  | nil => exact fun st => ⟨rfl, fun h => h⟩
  | cons row rest ih =>
    intro st
    simp only [processRows]
    by_cases h1 : st.continue_sending = false
    · rw [if_pos h1]
      exact ⟨rfl, fun h => h⟩
    · rw [if_neg h1]
      by_cases h2 : 1000 ≤ st.sent_count ∧ dec st.askIdx = false
      · rw [if_pos h2]
        exact ih _
      · rw [if_neg h2]
        by_cases h3 : cfg.limit ≠ 0 ∧ cfg.limit ≤ st.total_processed
        · rw [if_pos h3]
          exact ⟨rfl, fun h => h⟩
        · rw [if_neg h3]
          by_cases h4 : cfg.skip_duplicates = true ∧
              wasSentToday db (normalize_phone
                (some (getRawPhone row).toList) cfg.cpfx cfg.ensurePlus)
                today = true
          · rw [if_pos h4]
            exact ih _
          · rw [if_neg h4]
            rw [if_pos trivial]
            refine ⟨(ih _).1, fun h => (ih _).2 ?_⟩
            simp only [List.all_append, h, Bool.true_and]
            rfl

theorem no_db_invariant (cfg : SMSConfig) (today : Nat) (dry : Bool)
    (tr : Nat → SendOutcome) (dec : Nat → Bool) (render : Row → String) :
    ∀ (rows : List Row) (st : EngineState),
      (processRows cfg none today dry tr dec render rows st).writes =
        st.writes ∧
      (PEvent.dupSkip ∉ st.events →
        PEvent.dupSkip ∉
          (processRows cfg none today dry tr dec render rows st).events) := by
  intro rows
  induction rows with
  | nil =>
    intro st
    refine ⟨?_, fun h => h⟩
    show logToDbBatch none st.writes st.batch = st.writes
    exact logToDbBatch_none _ _
  | cons row rest ih =>
    intro st
    simp only [processRows]
    by_cases h1 : st.continue_sending = false
    · rw [if_pos h1]
      refine ⟨?_, fun h => ?_⟩
      · show logToDbBatch none st.writes st.batch = st.writes
        exact logToDbBatch_none _ _
      · show PEvent.dupSkip ∉ st.events ++ [PEvent.halted]
        simp [List.mem_append, h]
    · rw [if_neg h1]
      by_cases h2 : 1000 ≤ st.sent_count ∧ dec st.askIdx = false
      · rw [if_pos h2]
        exact ih _
      · rw [if_neg h2]
        by_cases h3 : cfg.limit ≠ 0 ∧ cfg.limit ≤ st.total_processed
        · rw [if_pos h3]
          refine ⟨?_, fun h => h⟩
          show logToDbBatch none st.writes st.batch = st.writes
          exact logToDbBatch_none _ _
        · rw [if_neg h3]
          rw [if_neg (by rintro ⟨-, h⟩; simp [wasSentToday] at h)]
          by_cases h5 : dry = true
          · rw [if_pos h5]
            refine ⟨(ih _).1, fun h => (ih _).2 ?_⟩
            show PEvent.dupSkip ∉ st.events ++ [PEvent.dryRun]
            simp [List.mem_append, h]
          · rw [if_neg h5]
            refine ⟨?_, fun h => (ih _).2 ?_⟩
            · rw [(ih _).1]
              show (if 100 ≤ _ then logToDbBatch none st.writes _
                    else st.writes) = st.writes
              rw [logToDbBatch_none, ite_self]
            · show PEvent.dupSkip ∉ st.events ++
                (if (st.total_processed + 1) % 100 = 0 then
                  [PEvent.periodic] else [])
              rw [List.mem_append]
              rintro (hc | hc)
              · exact h hc
              · by_cases hm : (st.total_processed + 1) % 100 = 0
                · rw [if_pos hm] at hc
                  simp at hc
                · rw [if_neg hm] at hc
                  simp at hc

set_option maxRecDepth 8000 in
/-- Processing one row from a state at or above the daily cap, with the
dialog answered "yes": the run continues on the remaining rows from a state
whose ask counter has grown by one and which is still at the cap. -/
theorem cap_step (cfg : SMSConfig) (db : Option (List HistoryEntry))
    (today : Nat) (dry : Bool) (tr : Nat → SendOutcome) (dec : Nat → Bool)
    (render : Row → String) (row : Row) (rest : List Row) (st : EngineState)
    (hl : cfg.limit = 0) (hc : st.continue_sending = true)
    (hs : 1000 ≤ st.sent_count) (hd : dec st.askIdx = true) :
    ∃ stn, processRows cfg db today dry tr dec render (row :: rest) st =
        processRows cfg db today dry tr dec render rest stn ∧
      stn.askIdx = st.askIdx + 1 ∧ stn.continue_sending = true ∧
      1000 ≤ stn.sent_count := by
  simp only [processRows]
  rw [if_neg (by simp [hc])]
  rw [if_neg (by rintro ⟨-, h⟩; rw [hd] at h; cases h)]
  rw [if_pos hs]
  rw [if_neg (by rintro ⟨h, -⟩; exact h hl)]
  by_cases h4 : cfg.skip_duplicates = true ∧
      wasSentToday db (normalize_phone (some (getRawPhone row).toList)
        cfg.cpfx cfg.ensurePlus) today = true
  · rw [if_pos h4]
    exact ⟨_, rfl, rfl, hc, hs⟩
  · rw [if_neg h4]
    by_cases h5 : dry = true
    · rw [if_pos h5]
      exact ⟨_, rfl, rfl, hc, hs⟩
    · rw [if_neg h5]
      refine ⟨_, rfl, rfl, hc, ?_⟩
      exact le_trans hs (Nat.le_add_right _ _)

/-! ## Email-loop helper lemmas -/

theorem emailRetry_conns_prefix (pw toA : String) (sendOk : Nat → Bool) :
    ∀ (fuel : Nat) (st : EmailState),
      st.conns <+: (emailRetry pw toA sendOk fuel st).2.2.conns := by
  intro fuel
  induction fuel with
  | zero => intro st; exact List.prefix_refl _
  | succ m ih =>
    intro st
    simp only [emailRetry]
    by_cases hok : sendOk st.sendIdx = true
    · rw [if_pos hok]
      try exact List.prefix_refl _
    · rw [if_neg hok]
      by_cases hm : m = 0
      · rw [if_pos hm]
        exact List.prefix_append _ _
      · rw [if_neg hm]
        exact (List.prefix_append st.conns [pw]).trans
          (ih { st with sends := st.sends ++ [toA],
                        sendIdx := st.sendIdx + 1,
                        conns := st.conns ++ [pw],
                        connIdx := st.connIdx + 1 })

theorem email_conns_prefix (cfg : EmailConfig) (pw : String) (dry : Bool)
    (connOk sendOk : Nat → Bool) (renderS : Row → String) :
    ∀ (rows : List Row) (st : EmailState),
      st.conns <+:
        (emailProcessRows cfg pw dry connOk sendOk renderS rows st).conns := by
  intro rows
  induction rows with
  | nil => intro st; exact List.prefix_refl _
  | cons row rest ih =>
    intro st
    simp only [emailProcessRows]
    by_cases h1 : cfg.limit ≠ 0 ∧ cfg.limit ≤ st.total_processed
    · rw [if_pos h1]
      try exact List.prefix_refl _
    · rw [if_neg h1]
      by_cases h2 : getToAddr row = ""
      · rw [if_pos h2]
        exact ih { st with total_processed := st.total_processed + 1,
                           log := st.log ++ [⟨"", "", 0, false, "no-email"⟩] }
      · rw [if_neg h2]
        by_cases h3 : dry = true
        · rw [if_pos h3]
          exact ih
            { st with total_processed := st.total_processed + 1,
                      log := st.log ++
                        [⟨getToAddr row, renderS row, 0, false, ""⟩] }
        · rw [if_neg h3]
          by_cases h4 : st.connected = true
          · rw [if_pos h4]
            refine List.IsPrefix.trans ?_ (ih _)
            exact emailRetry_conns_prefix pw (getToAddr row) sendOk
              (cfg.retries + 1)
              { st with total_processed := st.total_processed + 1 }
          · rw [if_neg h4]
            by_cases h5 : connOk st.connIdx = true
            · rw [if_pos h5]
              refine List.IsPrefix.trans ?_ (ih _)
              refine List.IsPrefix.trans
                (List.prefix_append st.conns [DEFAULT_MAIL_PASS]) ?_
              exact emailRetry_conns_prefix pw (getToAddr row) sendOk
                (cfg.retries + 1)
                { st with total_processed := st.total_processed + 1,
                          conns := st.conns ++ [DEFAULT_MAIL_PASS],
                          connIdx := st.connIdx + 1, connected := true }
            · rw [if_neg h5]
              exact List.prefix_append _ _

/-! ## Concrete fixtures for witnesses and counterexamples -/

/-- A transport that fails every attempt with status 500. -/
def trFail : Nat → SendOutcome := fun _ => ⟨false, some 500, "boom"⟩

/-- Rate-cap dialog always answered "yes, continue". -/
def decYes : Nat → Bool := fun _ => true

/-- Rate-cap dialog always answered "no, stop". -/
def decNo : Nat → Bool := fun _ => false

/-- A constant renderer standing for `build_message template`. -/
def renderMsg : Row → String := fun _ => "msg"

/-- A row whose phone column is `+111`. -/
def rowPlus : Row := [("phone", "+111")]

/-- A row with no phone and no email column. -/
def rowBare : Row := [("name", "Bob")]

/-- A row with an email column. -/
def rowEmail : Row := [("email", "amy@example.com")]

/-- Config with `skip_duplicates` on, no retries, no limit. -/
def cfgDup : SMSConfig := ⟨7, 0, 0, true, [], false⟩

/-- Config with two retries, duplicates not skipped. -/
def cfgPlain : SMSConfig := ⟨7, 2, 0, false, [], false⟩

/-- Config with no retries, duplicates not skipped. -/
def cfgZero : SMSConfig := ⟨7, 0, 0, false, [], false⟩

/-- A history store holding one successful send to `+111` today. -/
def dbDup : List HistoryEntry := [⟨7, "+111".toList, "m", "success", 0⟩]

/-- A history store holding 1000 records for gateway 7 today. -/
def dbCap : List HistoryEntry := List.replicate 1000 ⟨7, [], "m", "failed", 0⟩

/-- A single failed record for account 1 on day 5. -/
def entFail : HistoryEntry := ⟨1, [], "m", "failed", 5⟩

/-- An environment holding `PW=envpw`. -/
def envPW : String → Option String := fun n =>
  if n = "PW" then some "envpw" else none

/-- Engine state mid-run: one message sent, nothing logged. -/
def stOne : EngineState := ⟨1, true, 0, 0, 0, [], [], [], [], []⟩

/-- Engine state mid-run at the 1000-message cap. -/
def stCap : EngineState := ⟨1000, true, 0, 0, 0, [], [], [], [], []⟩

/-- Fresh email-loop state. -/
def stE0 : EmailState := ⟨0, false, 0, [], 0, [], []⟩

/-- Email config with two retries and no limit. -/
def ecfg0 : EmailConfig := ⟨2, 0⟩

/-! ## C1 — duplicate skip -/

/-- C1 counterexample: with `skip_duplicates` on and `+111` already sent
today, the run processes the row but writes *no* LogRecord for it (the
claim asserts a record with `attempts = 0` is emitted); the transport is
indeed not invoked. -/
theorem C1_counterexample :
    (sendMessages cfgDup (some dbDup) 0 false trFail decYes renderMsg
      [rowPlus]).log = [] ∧
    (sendMessages cfgDup (some dbDup) 0 false trFail decYes renderMsg
      [rowPlus]).total_processed = 1 ∧
    (sendMessages cfgDup (some dbDup) 0 false trFail decYes renderMsg
      [rowPlus]).calls = [] := by
  refine ⟨?_, ?_, ?_⟩ <;> decide

/-- C1 (amended): when `skip_duplicates` is set and the History Gate reports
`wasSentToday(normalizedRecipient) = true`, the engine notifies progress and
continues to the next row without writing any LogRecord, without invoking
the transport, and without incrementing the sent counter. -/
theorem C1_dup_skip (cfg : SMSConfig) (db : Option (List HistoryEntry))
    (today : Nat) (dry : Bool) (tr : Nat → SendOutcome) (dec : Nat → Bool)
    (render : Row → String) (row : Row) (rest : List Row) (st : EngineState)
    (hc : st.continue_sending = true) (hcap : st.sent_count < 1000)
    (hlim : ¬ (cfg.limit ≠ 0 ∧ cfg.limit ≤ st.total_processed))
    (hskip : cfg.skip_duplicates = true)
    (hdup : wasSentToday db (normalize_phone (some (getRawPhone row).toList)
      cfg.cpfx cfg.ensurePlus) today = true) :
    processRows cfg db today dry tr dec render (row :: rest) st =
      processRows cfg db today dry tr dec render rest
        { st with total_processed := st.total_processed + 1,
                  events := st.events ++ [PEvent.dupSkip] } := by
  simp only [processRows]
  rw [if_neg (by simp [hc])]
  rw [if_neg (by rintro ⟨h1000, -⟩; omega)]
  rw [if_neg (show ¬ 1000 ≤ st.sent_count by omega)]
  rw [if_neg hlim]
  rw [if_pos ⟨hskip, hdup⟩]

/-- C1 witness: the amended statement applied to a concrete run. -/
theorem C1_witness :
    processRows cfgDup (some dbDup) 0 false trFail decYes renderMsg
        [rowPlus] stOne =
      processRows cfgDup (some dbDup) 0 false trFail decYes renderMsg []
        { stOne with total_processed := stOne.total_processed + 1,
                     events := stOne.events ++ [PEvent.dupSkip] } :=
  C1_dup_skip cfgDup (some dbDup) 0 false trFail decYes renderMsg rowPlus []
    stOne rfl (by decide) (by decide) rfl (by decide)

/-! ## C2 — dry run -/

/-- C2 counterexample: a dry-run row is logged with `success = False` (and
`attempts = 0`), not `success = true` as the claim states. -/
theorem C2_counterexample :
    ((sendMessages cfgPlain none 0 true trFail decYes renderMsg
      [rowPlus]).log.map (fun lr => (lr.attempts, lr.success))) =
      [(0, false)] := by
  decide

/-- C2 (amended): in dry-run mode every LogRecord written has
`attempts = 0` and `success = false` (the message is computed but not
transmitted), and the transport is never invoked. -/
theorem C2_dry_run (cfg : SMSConfig) (db : Option (List HistoryEntry))
    (today : Nat) (tr : Nat → SendOutcome) (dec : Nat → Bool)
    (render : Row → String) (rows : List Row) :
    (sendMessages cfg db today true tr dec render rows).calls = [] ∧
    (sendMessages cfg db today true tr dec render rows).log.all
      (fun lr => lr.attempts == 0 && lr.success == false) = true := by
  unfold sendMessages
  exact ⟨(dry_invariant cfg db today tr dec render rows _).1,
    (dry_invariant cfg db today tr dec render rows _).2 rfl⟩

/-! ## C3 — retry exhaustion -/

/-- C3: against a transport failing on every attempt, a processed row gets
exactly `retries + 1` transport calls and one LogRecord with
`success = false`, `attempts = retries + 1`, retaining the last attempt's
status code and response text. -/
theorem C3_retry_exhaust (cfg : SMSConfig) (today : Nat)
    (tr : Nat → SendOutcome) (dec : Nat → Bool) (render : Row → String)
    (row : Row) (hfail : ∀ i, (tr i).ok = false) :
    (sendMessages cfg none today false tr dec render [row]).log =
      [⟨normalize_phone (some (getRawPhone row).toList) cfg.cpfx
          cfg.ensurePlus, render row, cfg.retries + 1, false,
        (tr cfg.retries).status, (tr cfg.retries).text⟩] ∧
    (sendMessages cfg none today false tr dec render [row]).calls =
      List.replicate (cfg.retries + 1)
        (normalize_phone (some (getRawPhone row).toList) cfg.cpfx
          cfg.ensurePlus, render row) := by
  have h := single_row_send cfg today tr dec render row
  rw [retryLoop_fail tr hfail cfg.retries 0] at h
  simpa using h

/-- C3 witness: two retries, always-failing transport: three attempts,
`success = false`, last status/response kept. -/
theorem C3_witness :
    (sendMessages cfgPlain none 0 false trFail decYes renderMsg
        [rowPlus]).log =
      [⟨normalize_phone (some (getRawPhone rowPlus).toList) cfgPlain.cpfx
          cfgPlain.ensurePlus, renderMsg rowPlus, cfgPlain.retries + 1,
        false, (trFail cfgPlain.retries).status,
        (trFail cfgPlain.retries).text⟩] ∧
    (sendMessages cfgPlain none 0 false trFail decYes renderMsg
        [rowPlus]).calls =
      List.replicate (cfgPlain.retries + 1)
        (normalize_phone (some (getRawPhone rowPlus).toList) cfgPlain.cpfx
          cfgPlain.ensurePlus, renderMsg rowPlus) :=
  C3_retry_exhaust cfgPlain 0 trFail decYes renderMsg rowPlus
    (fun _ => rfl)

/-! ## C4 — normalizer idempotence -/

/-- C4 counterexample: `normalize` is not idempotent for every string — on
`"-\t1"` the first pass exposes a leading tab that only the second pass
strips, so `normalize (normalize s) ≠ normalize s`. -/
theorem C4_counterexample :
    normalize_phone (some (normalize_phone (some ['-', '\t', '1']) []
        false)) [] false ≠
      normalize_phone (some ['-', '\t', '1']) [] false := by
  decide

/-- C4 (amended): the normalizer is idempotent for every string whose
whitespace characters are plain spaces (no tab/newline that separator
removal could expose at a boundary) and every prefix made of
non-separator, non-whitespace characters that either starts with `+` or
does not start with `00`. -/
theorem C4_idem (s p : List Char) (f : Bool) (hs : GoodStr s)
    (hp : GoodPref p) :
    normalize_phone (some (normalize_phone (some s) p f)) p f =
      normalize_phone (some s) p f :=
  normalize_phone_idem s p f hs hp

/-- C4 witness: the amended idempotence applied to the spec's own example
input `normalize("0712 345-678", "+254")`. -/
theorem C4_witness :
    GoodStr "0712 345-678".toList ∧ GoodPref "+254".toList ∧
    normalize_phone (some (normalize_phone (some "0712 345-678".toList)
        "+254".toList false)) "+254".toList false =
      normalize_phone (some "0712 345-678".toList) "+254".toList false :=
  ⟨by decide, by decide,
    C4_idem "0712 345-678".toList "+254".toList false (by decide)
      (by decide)⟩

/-! ## C5 — escaped-dialect rendering -/

/-- C5: the escaped dialect leaves single-brace blocks literal while
substituting `\x7b\x7bname\x7d\x7d` tokens (missing names give the empty
string, whitespace inside the token is insignificant); in particular the
spec's CSS example renders as stated. -/
theorem C5_escaped_render :
    build_message_escaped
        "<style>.a\x7bcolor:red\x7d</style>\x7b\x7bname\x7d\x7d".toList
        [("name".toList, "Amy".toList)] =
      some "<style>.a\x7bcolor:red\x7d</style>Amy".toList ∧
    build_message_escaped "Hi \x7b\x7bfirst\x7d\x7d!".toList [] =
      some "Hi !".toList ∧
    build_message_escaped "\x7b\x7b name \x7d\x7d".toList
        [("name".toList, "Amy".toList)] =
      some "Amy".toList := by
  refine ⟨?_, ?_, ?_⟩ <;> decide

/-! ## C6 — dailyCount and record status -/

/-- C6 counterexample: a record with status `failed` for account 1 today is
counted by `get_daily_sent_count` (the query has no status filter), while
the claimed successful-only count is 0. -/
theorem C6_counterexample :
    getDailySentCount (some [entFail]) 1 5 = 1 ∧
    dailyCountSpec [entFail] 1 5 = 0 := by
  refine ⟨?_, ?_⟩ <;> decide

/-- C6 (amended): `dailyCount(accountId)` returns the number of records
logged for that account since the start of the current day regardless of
status: it is the successful count plus the non-successful count. -/
theorem C6_daily_count (es : List HistoryEntry) (gid today : Nat) :
    getDailySentCount (some es) gid today =
      dailyCountSpec es gid today +
      es.countP (fun e => e.gateway_id == gid && e.sent_day == today &&
        !(e.status == "success")) := by
  induction es with
  | nil => rfl
  | cons a es ih =>
    simp only [getDailySentCount, dailyCountSpec] at ih ⊢
    rw [List.countP_cons, List.countP_cons, List.countP_cons, ih]
    cases hga : a.gateway_id == gid <;> cases hd : a.sent_day == today <;>
      cases hs : a.status == "success" <;> simp [hga, hd, hs] <;> omega

/-! ## C7 — rate-cap decision -/

/-- C7 counterexample: with the daily count at the cap and the dialog
answered "continue", the decision is surfaced again at the very next row —
two rows produce two asks, so it is not a once-per-run decision. -/
theorem C7_counterexample :
    (sendMessages cfgPlain (some dbCap) 0 true trFail decYes renderMsg
      [rowPlus, rowBare]).askIdx = 2 := by
  decide

/-- C7 (amended): the cap decision halts the run when answered "stop" (it
is then never re-asked, the remaining rows are skipped), but an answer of
"continue" does not suppress later asks: while the count stays at or above
the cap the question is re-surfaced at every subsequent row. -/
theorem C7_cap_decision :
    (∀ (cfg : SMSConfig) (db : Option (List HistoryEntry)) (today : Nat)
        (dry : Bool) (tr : Nat → SendOutcome) (dec : Nat → Bool)
        (render : Row → String) (row : Row) (rest : List Row)
        (st : EngineState),
      st.continue_sending = true → 1000 ≤ st.sent_count →
      dec st.askIdx = false →
      (processRows cfg db today dry tr dec render (row :: rest) st).askIdx =
        st.askIdx + 1) ∧
    (∀ (cfg : SMSConfig) (db : Option (List HistoryEntry)) (today : Nat)
        (dry : Bool) (tr : Nat → SendOutcome) (dec : Nat → Bool)
        (render : Row → String) (r1 r2 : Row) (st : EngineState),
      cfg.limit = 0 → st.continue_sending = true → 1000 ≤ st.sent_count →
      dec st.askIdx = true → dec (st.askIdx + 1) = true →
      (processRows cfg db today dry tr dec render [r1, r2] st).askIdx =
        st.askIdx + 2) := by
  constructor
  · intro cfg db today dry tr dec render row rest st hc hs hd
    simp only [processRows]
    rw [if_neg (by simp [hc])]
    rw [if_pos ⟨hs, hd⟩]
    exact processRows_halt_askIdx cfg db today dry tr dec render rest _ rfl
  · intro cfg db today dry tr dec render r1 r2 st hl hc hs hd1 hd2
    obtain ⟨st1, he1, ha1, hc1, hs1⟩ :=
      cap_step cfg db today dry tr dec render r1 [r2] st hl hc hs hd1
    rw [he1]
    obtain ⟨st2, he2, ha2, hc2, hs2⟩ :=
      cap_step cfg db today dry tr dec render r2 [] st1 hl hc1 hs1
        (by rw [ha1]; exact hd2)
    rw [he2]
    show st2.askIdx = st.askIdx + 2
    rw [ha2, ha1]

/-- C7 witness: at the cap, a "stop" answer yields exactly one ask; with
"continue" answers, two rows yield two asks. -/
theorem C7_witness :
    (processRows cfgPlain none 0 true trFail decNo renderMsg [rowPlus]
      stCap).askIdx = 1 ∧
    (processRows cfgPlain none 0 true trFail decYes renderMsg
      [rowPlus, rowBare] stCap).askIdx = 2 :=
  ⟨C7_cap_decision.1 cfgPlain none 0 true trFail decNo renderMsg rowPlus []
      stCap rfl (by decide) rfl,
    C7_cap_decision.2 cfgPlain none 0 true trFail decYes renderMsg rowPlus
      rowBare stCap rfl rfl (by decide) rfl rfl⟩

/-! ## C8 — missing recipient -/

/-- C8 counterexample: the SMS engine performs no missing-recipient skip —
a row with no phone column is still handed to the transport (with the empty
normalized recipient), contradicting "never invokes the transport". -/
theorem C8_counterexample :
    (sendMessages cfgZero none 0 false trFail decYes renderMsg
      [rowBare]).calls = [(([] : List Char), "msg")] := by
  decide

/-- C8 (amended): only the email engine skips missing-recipient rows — it
logs `success = false` with reason `no-email`, never touches the transport,
and continues; the SMS engine attempts delivery anyway, invoking the
transport with the empty normalized recipient. -/
theorem C8_missing_recipient :
    (∀ (cfg : EmailConfig) (pw : String) (dry : Bool)
        (connOk sendOk : Nat → Bool) (renderS : Row → String) (row : Row)
        (rest : List Row) (st : EmailState),
      ¬ (cfg.limit ≠ 0 ∧ cfg.limit ≤ st.total_processed) →
      getToAddr row = "" →
      emailProcessRows cfg pw dry connOk sendOk renderS (row :: rest) st =
        emailProcessRows cfg pw dry connOk sendOk renderS rest
          { st with total_processed := st.total_processed + 1,
                    log := st.log ++ [⟨"", "", 0, false, "no-email"⟩] }) ∧
    (∀ (cfg : SMSConfig) (today : Nat) (tr : Nat → SendOutcome)
        (dec : Nat → Bool) (render : Row → String) (row : Row),
      getRawPhone row = "" →
      (sendMessages cfg none today false tr dec render [row]).calls ≠ [] ∧
      ∀ c ∈ (sendMessages cfg none today false tr dec render [row]).calls,
        c.1 = ([] : List Char)) := by
  constructor
  · intro cfg pw dry connOk sendOk renderS row rest st hlim hto
    simp only [emailProcessRows]
    rw [if_neg hlim, if_pos hto]
  · intro cfg today tr dec render row hraw
    have h := (single_row_send cfg today tr dec render row).2
    have hpn : normalize_phone (some (getRawPhone row).toList) cfg.cpfx
        cfg.ensurePlus = [] := by
      rw [hraw]
      rfl
    rw [hpn] at h
    constructor
    · rw [h]
      intro hcontra
      have hz : (retryLoop tr 0 (cfg.retries + 1)).1 = 0 := by
        simpa [List.replicate_eq_nil_iff] using hcontra
      have hpos := retryLoop_attempts_pos tr 0 cfg.retries
      omega
    · intro c hcmem
      rw [h] at hcmem
      rw [List.eq_of_mem_replicate hcmem]

/-- C8 witness: the amended statement at a concrete phoneless /
email-less row. -/
theorem C8_witness :
    (emailProcessRows ecfg0 "pw" false (fun _ => true) (fun _ => true)
        (fun _ => "s") [rowBare] stE0 =
      emailProcessRows ecfg0 "pw" false (fun _ => true) (fun _ => true)
        (fun _ => "s") []
        { stE0 with total_processed := stE0.total_processed + 1,
                    log := stE0.log ++ [⟨"", "", 0, false, "no-email"⟩] }) ∧
    ((sendMessages cfgZero none 0 false trFail decYes renderMsg
        [rowBare]).calls ≠ [] ∧
      ∀ c ∈ (sendMessages cfgZero none 0 false trFail decYes renderMsg
        [rowBare]).calls, c.1 = ([] : List Char)) :=
  ⟨C8_missing_recipient.1 ecfg0 "pw" false (fun _ => true) (fun _ => true)
      (fun _ => "s") rowBare [] stE0 (by decide) rfl,
    C8_missing_recipient.2 cfgZero 0 trFail decYes renderMsg rowBare rfl⟩

/-! ## C9 — credential resolution -/

/-- C9 counterexample: with both `--password-env` (pointing at a non-empty
environment value) and an explicit `--password` supplied, the environment
value wins — the explicit value is *not* tried first as the claim states. -/
theorem C9_counterexample :
    resolvePassword (some "PW") envPW (some "clipw") "" = "envpw" ∧
    resolvePassword (some "PW") envPW (some "clipw") "" ≠ "clipw" := by
  refine ⟨?_, ?_⟩ <;> decide

/-- C9 (amended): the resolution order is named-environment-variable first
(when the option is set and the value non-empty), then the explicit value
(only reachable when the env option was supplied and looked up empty), then
the built-in `DEFAULT_MAIL_PASS`; with no env option the resolution yields
the empty string, ignoring the explicit value.  Moreover the run's initial
SMTP connection uses the built-in default credential, not the resolved
one — only post-failure reconnects use the resolved credential. -/
theorem C9_credential_resolution :
    (∀ (envName v : String) (envLookup : String → Option String)
        (password : Option String) (promptResult : String),
      envName ≠ "" → envLookup envName = some v → v ≠ "" →
      resolvePassword (some envName) envLookup password promptResult = v) ∧
    (∀ (envName : String) (envLookup : String → Option String) (p : String)
        (promptResult : String),
      envName ≠ "" → (envLookup envName).getD "" = "" → p ≠ "" →
      resolvePassword (some envName) envLookup (some p) promptResult = p) ∧
    (∀ (envName : String) (envLookup : String → Option String)
        (promptResult : String),
      envName ≠ "" → (envLookup envName).getD "" = "" →
      resolvePassword (some envName) envLookup none promptResult =
        DEFAULT_MAIL_PASS) ∧
    (∀ (envLookup : String → Option String) (password : Option String)
        (promptResult : String),
      resolvePassword none envLookup password promptResult = "") ∧
    (∀ (cfg : EmailConfig) (pw : String) (connOk sendOk : Nat → Bool)
        (renderS : Row → String) (row : Row) (rest : List Row)
        (st : EmailState),
      st.connected = false → st.conns = [] →
      ¬ (cfg.limit ≠ 0 ∧ cfg.limit ≤ st.total_processed) →
      getToAddr row ≠ "" →
      ((emailProcessRows cfg pw false connOk sendOk renderS (row :: rest)
        st).conns).head? = some DEFAULT_MAIL_PASS) := by
  refine ⟨?_, ?_, ?_, ?_, ?_⟩
  · intro envName v envLookup password promptResult hne henv hv
    simp [resolvePassword, hne, henv, hv]
  · intro envName envLookup p promptResult hne hev hp
    simp [resolvePassword, hne, hev, hp]
  · intro envName envLookup promptResult hne hev
    simp [resolvePassword, hne, hev, DEFAULT_MAIL_PASS]
  · intro envLookup password promptResult
    rfl
  · intro cfg pw connOk sendOk renderS row rest st hconn hcs hlim hto
    simp only [emailProcessRows]
    rw [if_neg hlim, if_neg hto]
    rw [if_neg (by simp)]
    rw [if_neg (by simp [hconn])]
    by_cases hok : connOk st.connIdx = true
    · rw [if_pos hok]
      generalize hr : emailRetry pw (getToAddr row) sendOk
        (cfg.retries + 1)
        { st with total_processed := st.total_processed + 1,
                  conns := st.conns ++ [DEFAULT_MAIL_PASS],
                  connIdx := st.connIdx + 1, connected := true } = r
      have h1 : ({ st with total_processed := st.total_processed + 1,
                           conns := st.conns ++ [DEFAULT_MAIL_PASS],
                           connIdx := st.connIdx + 1,
                           connected := true } : EmailState).conns <+:
          r.2.2.conns := by
        rw [← hr]
        exact emailRetry_conns_prefix pw (getToAddr row) sendOk
          (cfg.retries + 1) _
      have h2 := email_conns_prefix cfg pw false connOk sendOk renderS rest
        { r.2.2 with log := r.2.2.log ++
            [⟨getToAddr row, renderS row, r.1, r.2.1,
              if r.2.1 = true then "" else "send_failed"⟩] }
      obtain ⟨t, ht⟩ := h1.trans h2
      rw [← ht]
      show ((st.conns ++ [DEFAULT_MAIL_PASS]) ++ t).head? =
        some DEFAULT_MAIL_PASS
      rw [hcs]
      rfl
    · rw [if_neg hok]
      show ((st.conns ++ [DEFAULT_MAIL_PASS]).head?) =
        some DEFAULT_MAIL_PASS
      rw [hcs]
      rfl

/-- C9 witness: each resolution case and the initial-connect credential at
concrete inputs. -/
theorem C9_witness :
    resolvePassword (some "PW") envPW (some "clipw") "" = "envpw" ∧
    resolvePassword (some "PW") (fun _ => some "") (some "clipw") "" =
      "clipw" ∧
    resolvePassword (some "PW") (fun _ => none) none "" =
      DEFAULT_MAIL_PASS ∧
    resolvePassword none envPW (some "clipw") "" = "" ∧
    ((emailProcessRows ecfg0 "resolved" false (fun _ => true)
        (fun _ => false) (fun _ => "s") [rowEmail] stE0).conns).head? =
      some DEFAULT_MAIL_PASS :=
  ⟨C9_credential_resolution.1 "PW" "envpw" envPW (some "clipw") ""
      (by decide) rfl (by decide),
    C9_credential_resolution.2.1 "PW" (fun _ => some "") "clipw" ""
      (by decide) rfl (by decide),
    C9_credential_resolution.2.2.1 "PW" (fun _ => none) "" (by decide) rfl,
    C9_credential_resolution.2.2.2.1 envPW (some "clipw") "",
    C9_credential_resolution.2.2.2.2 ecfg0 "resolved" (fun _ => true)
      (fun _ => false) (fun _ => "s") rowEmail [] stE0 rfl rfl (by decide)
      (by decide)⟩

/-! ## C10 — running without a history store -/

/-- C10: with no database connection, `dailyCount` is 0, `wasSentToday` is
false for every recipient, `recordBatch` writes nothing; consequently a run
performs no database writes, never duplicate-skips a row, and its daily-cap
counter starts at 0. -/
theorem C10_no_history_store :
    (∀ gid today, getDailySentCount none gid today = 0) ∧
    (∀ (ph : List Char) (today : Nat),
      wasSentToday none ph today = false) ∧
    (∀ (w : List (List BatchTuple)) (l : List BatchTuple),
      logToDbBatch none w l = w) ∧
    (∀ (cfg : SMSConfig) (today : Nat) (dry : Bool)
        (tr : Nat → SendOutcome) (dec : Nat → Bool)
        (render : Row → String) (rows : List Row),
      (sendMessages cfg none today dry tr dec render rows).writes = [] ∧
      PEvent.dupSkip ∉
        (sendMessages cfg none today dry tr dec render rows).events) ∧
    (∀ (cfg : SMSConfig) (today : Nat) (dry : Bool)
        (tr : Nat → SendOutcome) (dec : Nat → Bool)
        (render : Row → String),
      (sendMessages cfg none today dry tr dec render []).sent_count = 0) := by
  refine ⟨fun gid today => rfl, fun ph today => rfl,
    fun w l => logToDbBatch_none w l, ?_,
    fun cfg today dry tr dec render => rfl⟩
  intro cfg today dry tr dec render rows
  exact ⟨(no_db_invariant cfg today dry tr dec render rows _).1,
    (no_db_invariant cfg today dry tr dec render rows _).2 (by simp)⟩

end Sender
